import Mathlib

/-!
Verification of the CSV cleansing engine in lambda-large-file-cleansing.

The definitions below are a shallow embedding of src/app.py,
src/app_multithread.py and the validation SQL of src/app_duckdb.py.
Python machine behaviour (the csv module single-line reader, the int
conversion grammar, strptime calendar validation) is embedded for ASCII
inputs; all functions are computable and kernel-reducible.
-/

namespace Cleanse

/-- Error text produced by the Python csv module when a carriage return or
newline occurs in an unquoted field. -/
def csvNewlineMsg : String :=
  "new-line character seen in unquoted field - do you need to open the file in universal-newline mode?"

/-- Error text produced by the Python csv module when a field exceeds the
default field size limit. -/
def csvFieldLimitMsg : String := "field larger than field limit (131072)"

/-- Default csv.field_size_limit in CPython. -/
def fieldLimit : Nat := 131072

/-- Parser states of the Python csv reader (default dialect: delimiter comma,
quote char double quote, doublequote on, strict off). -/
inductive CsvState where
  | startField
  | inField
  | inQuoted
  | quoteInQuoted
deriving DecidableEq

/-- One step per character of the Python csv reader over a single line.
cur is the field being accumulated, acc the fields already finished. -/
def csvLoop : List Char → CsvState → List Char → List String → Except String (List String)
  | [], _, cur, acc => .ok (acc ++ [String.mk cur])
  | c :: rest, .startField, cur, acc =>
    if c = '"' then csvLoop rest .inQuoted cur acc
    else if c = ',' then csvLoop rest .startField [] (acc ++ [String.mk cur])
    else if c = '\r' ∨ c = '\n' then .error csvNewlineMsg
    else if fieldLimit ≤ cur.length then .error csvFieldLimitMsg
    else csvLoop rest .inField (cur ++ [c]) acc
  | c :: rest, .inField, cur, acc =>
    if c = ',' then csvLoop rest .startField [] (acc ++ [String.mk cur])
    else if c = '\r' ∨ c = '\n' then .error csvNewlineMsg
    else if fieldLimit ≤ cur.length then .error csvFieldLimitMsg
    else csvLoop rest .inField (cur ++ [c]) acc
  | c :: rest, .inQuoted, cur, acc =>
    if c = '"' then csvLoop rest .quoteInQuoted cur acc
    else if fieldLimit ≤ cur.length then .error csvFieldLimitMsg
    else csvLoop rest .inQuoted (cur ++ [c]) acc
  | c :: rest, .quoteInQuoted, cur, acc =>
    if c = '"' then
      if fieldLimit ≤ cur.length then .error csvFieldLimitMsg
      else csvLoop rest .inQuoted (cur ++ [c]) acc
    else if c = ',' then csvLoop rest .startField [] (acc ++ [String.mk cur])
    else if c = '\r' ∨ c = '\n' then .error csvNewlineMsg
    else if fieldLimit ≤ cur.length then .error csvFieldLimitMsg
    else csvLoop rest .inField (cur ++ [c]) acc

/-- Parse of one input line by csv.reader, as done by
validate_csv_row: reader = csv.reader([line]); row = next(reader).
An empty line yields the empty row, matching the Python reader. -/
def parseCsvLine (line : String) : Except String (List String) :=
  match line.toList with
  | [] => .ok []
  | cs => csvLoop cs .startField [] []

/-- Rejection reasons of validate_csv_row: the six in-code reasons plus the
catch-all that returns the text of a caught engine exception. -/
inductive Reason where
  | invalidColumnCount
  | noIsNull
  | noIsNotInt
  | nameTooLong
  | dateNotFormat
  | dateInvalidDate
  | engineFault (msg : String)
deriving DecidableEq

/-- Verdict of validate_csv_row: the dict with key valid, plus the reason. -/
inductive Verdict where
  | ok
  | reject (r : Reason)
deriving DecidableEq

/-- Mapping of the in-code reasons onto the closed five-element taxonomy of
the specification; the engine-fault catch-all has no taxonomy element. -/
def Reason.taxonomy : Reason → Option String
  | .invalidColumnCount => some "malformed-row"
  | .noIsNull => some "id-null-or-nonint"
  | .noIsNotInt => some "id-null-or-nonint"
  | .nameTooLong => some "label-too-long"
  | .dateNotFormat => some "date-format"
  | .dateInvalidDate => some "date-invalid"
  | .engineFault _ => none

/-- Taxonomy classification of a whole verdict. -/
def Verdict.taxonomy : Verdict → Option String
  | .ok => none
  | .reject r => r.taxonomy

/-- ASCII whitespace stripped by the Python str.strip method. -/
def isPyWs (c : Char) : Bool :=
  c = ' ' ∨ c = '\t' ∨ c = '\n' ∨ c = '\r' ∨ c = Char.ofNat 11 ∨ c = Char.ofNat 12

/-- Both-ends whitespace strip on a character list. -/
def pyStripList (cs : List Char) : List Char :=
  ((cs.dropWhile isPyWs).reverse.dropWhile isPyWs).reverse

/-- Python str.strip, over ASCII whitespace. -/
def pyStrip (s : String) : String := String.mk (pyStripList s.toList)

/-- Numeric value of an ASCII digit. -/
def digitVal (c : Char) : Nat := c.toNat - 48

/-- Continuation of the CPython int literal body after the first digit:
digits, with single underscores allowed only between digits. -/
def digitsUndAux : List Char → Bool
  | [] => true
  | [c] => if c = '_' then false else c.isDigit
  | c :: d :: cs =>
    if c = '_' then d.isDigit && digitsUndAux cs
    else c.isDigit && digitsUndAux (d :: cs)

/-- CPython int digit body: nonempty digits with optional single underscore
separators between digits. -/
def digitsUnd : List Char → Bool
  | [] => false
  | c :: cs => c.isDigit && digitsUndAux cs

/-- CPython int body after whitespace strip: optional sign, then digits with
optional underscore separators. -/
def pyIntBody : List Char → Bool
  | [] => false
  | c :: rest => if c = '+' ∨ c = '-' then digitsUnd rest else digitsUnd (c :: rest)

/-- Success of the Python conversion int(s) on an ASCII string. -/
def pyIntOk (s : String) : Bool := pyIntBody (pyStripList s.toList)

/-- Extract the year, month and day numerals from a ten-character list of the
exact shape digit digit digit digit slash digit digit slash digit digit. -/
def dateFields? (cs : List Char) : Option (Nat × Nat × Nat) :=
  match cs with
  | [y1, y2, y3, y4, s1, m1, m2, s2, d1, d2] =>
    if y1.isDigit && y2.isDigit && y3.isDigit && y4.isDigit && s1 = '/'
        && m1.isDigit && m2.isDigit && s2 = '/' && d1.isDigit && d2.isDigit then
      some (1000 * digitVal y1 + 100 * digitVal y2 + 10 * digitVal y3 + digitVal y4,
        10 * digitVal m1 + digitVal m2, 10 * digitVal d1 + digitVal d2)
    else none
  | _ => none

/-- The Python regex match of the date pattern anchored on both sides; the
dollar anchor also matches just before one trailing newline. Digits are
modelled as ASCII digits. -/
def pyDateFormatOk (s : String) : Bool :=
  let cs := s.toList
  (dateFields? cs).isSome ||
    (cs.getLast? = some '\n' && (dateFields? cs.dropLast).isSome)

/-- Gregorian leap year rule used by the Python datetime module. -/
def isLeap (y : Nat) : Bool := y % 4 = 0 && (y % 100 ≠ 0 || y % 400 = 0)

/-- Days in a month of the proleptic Gregorian calendar. -/
def daysInMonth (y m : Nat) : Nat :=
  if m = 2 then (if isLeap y then 29 else 28)
  else if m = 4 ∨ m = 6 ∨ m = 9 ∨ m = 11 then 30
  else 31

/-- Month in range and day in range for the month. -/
def calendarOk (y m d : Nat) : Bool :=
  decide (1 ≤ m ∧ m ≤ 12 ∧ 1 ≤ d ∧ d ≤ daysInMonth y m)

/-- Success of datetime.strptime(s, the slashed date format): the string must
be exactly the ten-character pattern and denote a real calendar date with
year at least MINYEAR = 1. -/
def pyStrptimeYmdOk (s : String) : Bool :=
  match dateFields? s.toList with
  | some (y, m, d) => decide (1 ≤ y) && calendarOk y m d
  | none => false

/-- The rule chain of validate_csv_row applied to a parsed row: column count,
then the two id checks, then label length, then date format, then calendar
validity, in source order. -/
def checkRow (row : List String) : Verdict :=
  match row with
  | [no, name, day] =>
    if no = "" ∨ pyStrip no = "" then .reject .noIsNull
    else if !pyIntOk no then .reject .noIsNotInt
    else if 20 < name.length then .reject .nameTooLong
    else if !pyDateFormatOk day then .reject .dateNotFormat
    else if !pyStrptimeYmdOk day then .reject .dateInvalidDate
    else .ok
  | _ => .reject .invalidColumnCount

/-- validate_csv_row of app.py and app_multithread.py: parse the line with
the csv reader, then run the rule chain; any parse exception is caught and
returned as a rejected verdict carrying the exception text. -/
def validate_csv_row (line : String) : Verdict :=
  match parseCsvLine line with
  | .ok row => checkRow row
  | .error e => .reject (.engineFault e)

/-- The boolean the handlers branch on: validation_result valid. -/
def isValidLine (line : String) : Bool :=
  match validate_csv_row line with
  | .ok => true
  | .reject _ => false

example : parseCsvLine "a,b,c" = .ok ["a", "b", "c"] := rfl
example : parseCsvLine "" = .ok [] := rfl
example : parseCsvLine "\"a\"b,c" = .ok ["ab", "c"] := rfl
example : parseCsvLine "a\rb,c,d" = .error csvNewlineMsg := rfl
example : validate_csv_row "007,ok,2024/02/29" = .ok := by decide
example : validate_csv_row "007,ok,2023/02/29" = .reject .dateInvalidDate := by decide
example : validate_csv_row "1_2,ok,2024/01/01" = .ok := by decide
example : validate_csv_row "7,ok,2024-01-01" = .reject .dateNotFormat := by decide
example : pyIntOk " +7 " = true := by decide
example : pyIntOk "1__2" = false := by decide

/-- State of the sequential handler of app.py: the two output streams as line
lists, the three counters, and the header flag. -/
structure AppState where
  validOut : List String
  errorOut : List String
  lineCount : Nat
  validCount : Nat
  errorCount : Nat
  headerPending : Bool
deriving DecidableEq

/-- Start state of the sequential handler. -/
def appInit : AppState := ⟨[], [], 0, 0, 0, true⟩

/-- One iteration of the line loop of lambda_handler in app.py: empty lines
are skipped; every surviving line bumps line_count; the first one is the
header, copied verbatim to both streams; later ones are validated and routed. -/
def appStep (s : AppState) (line : String) : AppState :=
  if line = "" then s
  else
    let s1 : AppState := { s with lineCount := s.lineCount + 1 }
    if s1.headerPending then
      { s1 with
        validOut := s1.validOut ++ [line]
        errorOut := s1.errorOut ++ [line]
        headerPending := false }
    else if isValidLine line then
      { s1 with validOut := s1.validOut ++ [line], validCount := s1.validCount + 1 }
    else
      { s1 with errorOut := s1.errorOut ++ [line], errorCount := s1.errorCount + 1 }

/-- The whole line loop of lambda_handler in app.py over the decoded lines of
the body. -/
def appRun (lines : List String) : AppState := lines.foldl appStep appInit

/-- process_batch of app_multithread.py: validate each line of the batch in
order and append it to the valid or the error list. -/
def process_batch (lines : List String) : List String × List String :=
  lines.foldl
    (fun acc line =>
      if isValidLine line then (acc.1 ++ [line], acc.2) else (acc.1, acc.2 ++ [line]))
    ([], [])

/-- Content of the valid stream after the sink has ingested the batch results
in the order given by the list bs. -/
def validJoined (bs : List (List String)) : List String :=
  bs.flatMap fun b => (process_batch b).1

/-- Content of the error stream after the sink has ingested the batch results
in the order given by the list bs. -/
def errorJoined (bs : List (List String)) : List String :=
  bs.flatMap fun b => (process_batch b).2

/-- Worker count of app_multithread.py. -/
def MAX_WORKERS : Nat := 4

/-- Batch size of app_multithread.py. -/
def BATCH_SIZE : Nat := 1000

/-- Drain phase of the scheduler loop once the batch generator is exhausted:
each turn consumes one result and submits nothing. The list collects the
number of in-flight batches after every turn. -/
def drainLoop : Nat → List Nat
  | 0 => []
  | i + 1 => i :: drainLoop i

/-- Steady phase of the scheduler loop of lambda_handler in
app_multithread.py: while batches remain, each turn consumes one completed
result and submits exactly one new batch. The first argument is the in-flight
count, the second the number of batches not yet submitted. -/
def schedLoop : Nat → Nat → List Nat
  | i, 0 => drainLoop i
  | 0, _ + 1 => []
  | i + 1, r + 1 => (i + 1) :: schedLoop (i + 1) r

/-- In-flight counts over the whole run of the scheduler on numBatches
batches with worker count w: the initial prefill submits at most twice the
worker count, then the submit-per-consume loop runs. -/
def schedTrace (w numBatches : Nat) : List Nat :=
  let i := min (2 * w) numBatches
  i :: schedLoop i (numBatches - i)

/-- Nonempty all-digit character list. -/
def digitsOnly (cs : List Char) : Bool := !cs.isEmpty && cs.all fun c => c.isDigit

/-- Optional single leading sign followed by a nonempty digit list. -/
def signedDigitsOnly : List Char → Bool
  | [] => false
  | c :: rest => if c = '+' ∨ c = '-' then digitsOnly rest else digitsOnly (c :: rest)

/-- Value of a digit list read in base ten. -/
def natOfDigits (cs : List Char) : Nat := cs.foldl (fun a c => 10 * a + digitVal c) 0

/-- Signed value of an optionally signed digit list. -/
def intOfSigned : List Char → Int
  | [] => 0
  | c :: rest =>
    if c = '-' then -(natOfDigits rest : Int)
    else if c = '+' then (natOfDigits rest : Int)
    else (natOfDigits (c :: rest) : Int)

/-- The SQL TRIM of DuckDB with one argument removes spaces only. -/
def duckTrim (s : String) : String :=
  String.mk (((s.toList.dropWhile fun c => c = ' ').reverse.dropWhile fun c => c = ' ').reverse)

/-- Success of TRY_CAST(s AS INTEGER) in DuckDB on an optionally signed
decimal string: surrounding whitespace is skipped and the value must fit the
32-bit signed range. Other accepted DuckDB numeric spellings are outside the
inputs used by the theorems below. -/
def duckCastIntOk (s : String) : Bool :=
  let t := pyStripList s.toList
  signedDigitsOnly t &&
    decide (-(2 ^ 31) ≤ intOfSigned t ∧ intOfSigned t ≤ 2 ^ 31 - 1)

/-- Success of TRY_CAST(REPLACE(day, slash, dash) AS DATE) in DuckDB on a
day string of the regex-approved shape: the numerals must form a real
proleptic Gregorian date; DuckDB accepts year zero. -/
def duckCastDateOk (day : String) : Bool :=
  match dateFields? day.toList with
  | some (y, m, d) => calendarOk y m d
  | none => false

/-- The validation predicate of the WHERE clause in app_duckdb.py under SQL
three-valued logic. The CSV reader maps an empty field to NULL (the default
nullstr), and a NULL operand makes its conjunct non-true, so a row is
selected into valid_data only when every field that NULL could reach is
non-empty: id non-null, non-blank after TRIM and castable to INTEGER, name
non-null and at most twenty characters, date non-null, matching the
anchored digit pattern and castable to DATE after separator replacement. -/
def duckAccepts (no name day : String) : Bool :=
  !(no = "") && !(duckTrim no = "") && duckCastIntOk no &&
    !(name = "") && decide (name.length ≤ 20) &&
    !(day = "") && (dateFields? day.toList).isSome && duckCastDateOk day

/-- The id rule of the specification at taxonomy level: non-null, non-blank
after strip, and accepted by the int conversion. -/
def idRuleOk (s : String) : Bool := !(s = "" ∨ pyStrip s = "") && pyIntOk s

/-- The five specification rules in their stated priority order, each paired
with its taxonomy reason. -/
def specRules : List ((List String → Bool) × String) :=
  [(fun row => row.length = 3, "malformed-row"),
    (fun row => idRuleOk (row.getD 0 ""), "id-null-or-nonint"),
    (fun row => decide ((row.getD 1 "").length ≤ 20), "label-too-long"),
    (fun row => pyDateFormatOk (row.getD 2 ""), "date-format"),
    (fun row => pyStrptimeYmdOk (row.getD 2 ""), "date-invalid")]

/-- Scan an ordered rule list and return the reason of the first failing
rule, if any. -/
def firstFailingReason : List ((List String → Bool) × String) → List String → Option String
  | [], _ => none
  | (p, r) :: rest, row => if p row then firstFailingReason rest row else some r

/-- The id predicate written from the words of the specification: non-empty
after trimming whitespace, and a base-ten integer with an optional sign and
no leading or trailing garbage. -/
def specIdOk (s : String) : Bool := signedDigitsOnly (pyStripList s.toList)

/-- The non-empty lines among the raw lines, as produced by the decoded-line
generators of both handlers. -/
def dataOf (lines : List String) : List String := lines.filter fun l => !(l = "")

/-- State of the multithreaded handler of app_multithread.py: the two output
streams as line lists and the three counters. -/
structure MtState where
  validOut : List String
  errorOut : List String
  lineCount : Nat
  validCount : Nat
  errorCount : Nat
deriving DecidableEq

/-- One sink ingestion in the result loop of app_multithread.py: the valid
lines of the completed batch are appended to the valid stream and the error
lines to the error stream, each written line bumping line_count and its own
counter. -/
def mtIngest (s : MtState) (b : List String) : MtState :=
  { validOut := s.validOut ++ (process_batch b).1
    errorOut := s.errorOut ++ (process_batch b).2
    lineCount := s.lineCount + (process_batch b).1.length + (process_batch b).2.length
    validCount := s.validCount + (process_batch b).1.length
    errorCount := s.errorCount + (process_batch b).2.length }

/-- Header phase of app_multithread.py: header_line is the literal first
line pulled from the iterator; only when it is truthy (non-empty) is it
copied to both streams and counted in line_count. An empty first line is
consumed and dropped without forwarding any header. -/
def mtHeaderState (lines : List String) : MtState :=
  match lines with
  | [] => ⟨[], [], 0, 0, 0⟩
  | l :: _ => if l = "" then ⟨[], [], 0, 0, 0⟩ else ⟨[l], [l], 1, 0, 0⟩

/-- The whole run of the multithreaded handler: the header phase on the raw
lines, then the sink ingesting the batch results in the completion order
given by ingest. -/
def mtRun (lines : List String) (ingest : List (List String)) : MtState :=
  ingest.foldl mtIngest (mtHeaderState lines)

example : duckAccepts "7" "ok" "2024/02/29" = true := by decide
example : duckAccepts "3000000000" "ok" "2024/01/01" = false := by decide
example : (appRun ["h", "1,ok,2024/01/01"]).lineCount = 2 := by decide
example : process_batch ["1,ok,2024/01/01", "bad"] = (["1,ok,2024/01/01"], ["bad"]) := by decide
example : schedTrace 4 10 = [8, 8, 8, 7, 6, 5, 4, 3, 2, 1, 0] := by decide

/-! Helper lemmas shared by the claim theorems. -/

/-- A both-ends strip leaves a list unchanged when no element satisfies the
strip predicate. -/
theorem stripList_eq_self (p : Char → Bool) (cs : List Char) (h : ∀ c ∈ cs, p c = false) :
    ((cs.dropWhile p).reverse.dropWhile p).reverse = cs := by
  have h1 : cs.dropWhile p = cs := by
    cases cs with
    | nil => rfl
    | cons c cs2 =>
      rw [List.dropWhile_cons, h c (List.mem_cons_self _ _)]
      simp
  rw [h1]
  have h2 : cs.reverse.dropWhile p = cs.reverse := by
    cases hr : cs.reverse with
    | nil => rfl
    | cons c cs2 =>
      have hc : c ∈ cs := by
        have : c ∈ cs.reverse := by rw [hr]; exact List.mem_cons_self _ _
        simpa using this
      rw [List.dropWhile_cons, h c hc]
      simp
  rw [h2, List.reverse_reverse]

/-- A digit character is not Python whitespace. -/
theorem isPyWs_of_digit (c : Char) (h : c.isDigit = true) : isPyWs c = false := by
  cases hw : isPyWs c with
  | false => rfl
  | true =>
    exfalso
    simp only [isPyWs, decide_eq_true_eq] at hw
    rcases hw with rfl | rfl | rfl | rfl | rfl | rfl <;> exact absurd h (by decide)

/-- digitsOnly gives that every member is a digit. -/
theorem digitsOnly_mem (cs : List Char) (h : digitsOnly cs = true) :
    ∀ c ∈ cs, c.isDigit = true := by
  simp only [digitsOnly, Bool.and_eq_true, List.all_eq_true] at h
  exact h.2

/-- No character of an optionally signed digit list is Python whitespace. -/
theorem signed_no_ws (cs : List Char) (h : signedDigitsOnly cs = true) :
    ∀ c ∈ cs, isPyWs c = false := by
  cases cs with
  | nil => intro x hx; cases hx
  | cons c rest =>
    intro x hx
    simp only [signedDigitsOnly] at h
    by_cases hc : c = '+' ∨ c = '-'
    · rw [if_pos hc] at h
      rcases List.mem_cons.mp hx with rfl | hx2
      · rcases hc with rfl | rfl <;> decide
      · exact isPyWs_of_digit x (digitsOnly_mem rest h x hx2)
    · rw [if_neg hc] at h
      exact isPyWs_of_digit x (digitsOnly_mem _ h x hx)

/-- An all-digit list satisfies the underscore-separated digit scanner. -/
theorem digitsUndAux_of_digits : ∀ cs : List Char, (∀ c ∈ cs, c.isDigit = true) →
    digitsUndAux cs = true
  | [], _ => rfl
  | [c], h => by
    have hc := h c (List.mem_cons_self _ _)
    have hne : ¬(c = '_') := by intro h2; subst h2; exact absurd hc (by decide)
    simp [digitsUndAux, if_neg hne, hc]
  | c :: d :: cs, h => by
    have hc := h c (List.mem_cons_self _ _)
    have hne : ¬(c = '_') := by intro h2; subst h2; exact absurd hc (by decide)
    simp only [digitsUndAux, if_neg hne, Bool.and_eq_true]
    exact ⟨hc, digitsUndAux_of_digits (d :: cs) fun x hx => h x (List.mem_cons_of_mem _ hx)⟩

/-- digitsOnly implies the CPython digit body test. -/
theorem digitsUnd_of_digitsOnly (cs : List Char) (h : digitsOnly cs = true) :
    digitsUnd cs = true := by
  cases cs with
  | nil => exact absurd h (by decide)
  | cons c cs2 =>
    simp only [digitsUnd, Bool.and_eq_true]
    exact ⟨digitsOnly_mem _ h c (List.mem_cons_self _ _),
      digitsUndAux_of_digits _ fun x hx => digitsOnly_mem _ h x (List.mem_cons_of_mem _ hx)⟩

/-- An optionally signed digit list passes the CPython int body test. -/
theorem pyIntBody_of_signed (cs : List Char) (h : signedDigitsOnly cs = true) :
    pyIntBody cs = true := by
  cases cs with
  | nil => exact absurd h (by decide)
  | cons c rest =>
    simp only [signedDigitsOnly] at h
    simp only [pyIntBody]
    by_cases hc : c = '+' ∨ c = '-'
    · rw [if_pos hc] at h; rw [if_pos hc]; exact digitsUnd_of_digitsOnly _ h
    · rw [if_neg hc] at h; rw [if_neg hc]; exact digitsUnd_of_digitsOnly _ h

/-- A blank id (empty, or empty after strip) fails the int conversion. -/
theorem pyIntOk_blank_false (s : String) (h : s = "" ∨ pyStrip s = "") :
    pyIntOk s = false := by
  rcases h with rfl | h
  · decide
  · have h2 : pyStripList s.toList = [] := congrArg String.data h
    unfold pyIntOk
    rw [h2]
    rfl

/-- checkRow rejects any row that does not have exactly three fields. -/
theorem checkRow_length_ne (row : List String) (h : row.length ≠ 3) :
    checkRow row = .reject .invalidColumnCount := by
  match row with
  | [] => rfl
  | [a] => rfl
  | [a, b] => rfl
  | [a, b, c] => exact absurd rfl h
  | a :: b :: c :: d :: rest => rfl

/-- process_batch computes the two filters of the batch. -/
theorem process_batch_eq (l : List String) :
    process_batch l = (l.filter isValidLine, l.filter fun x => !isValidLine x) := by
  suffices h : ∀ (l a b : List String),
      l.foldl
          (fun acc line =>
            if isValidLine line then (acc.1 ++ [line], acc.2) else (acc.1, acc.2 ++ [line]))
          (a, b)
        = (a ++ l.filter isValidLine, b ++ l.filter fun x => !isValidLine x) by
    simpa [process_batch] using h l [] []
  intro l
  induction l with
  | nil => intro a b; simp
  | cons x xs ih =>
    intro a b
    by_cases hx : isValidLine x
    · simp [hx, ih, List.filter_cons]
    · simp [hx, ih, List.filter_cons]

/-- flatMap with the identity block function is flatten. -/
theorem flatMap_self (bs : List (List String)) : (bs.flatMap fun b => b) = bs.flatten := by
  induction bs with
  | nil => rfl
  | cons b bs2 ih => simp [List.flatMap_cons, List.flatten_cons, ih]

/-- The two joined sink streams are, together, a permutation of the joined
batches that produced them. -/
theorem joined_perm (bs : List (List String)) :
    (validJoined bs ++ errorJoined bs).Perm bs.flatten := by
  have h1 := List.flatMap_append_perm bs (fun b => (process_batch b).1) fun b => (process_batch b).2
  have h2 : ∀ b ∈ bs, ((process_batch b).1 ++ (process_batch b).2).Perm b := by
    intro b _
    rw [process_batch_eq]
    exact List.filter_append_perm _ b
  have h3 := List.Perm.flatMap_left bs h2
  rw [flatMap_self] at h3
  exact (h1.trans h3)

/-- The two joined sink streams together hold exactly as many lines as the
data lines of any split whose batches they ingest in any order. -/
theorem joined_length (dataLines : List String) (bs ingest : List (List String))
    (hsplit : bs.flatten = dataLines) (horder : ingest.Perm bs) :
    (validJoined ingest).length + (errorJoined ingest).length = dataLines.length := by
  have hflat : ingest.flatten.Perm dataLines := by
    have h2 := horder.flatMap_right fun b => b
    rw [flatMap_self, flatMap_self, hsplit] at h2
    exact h2
  have key := (joined_perm ingest).trans hflat
  simpa [List.length_append] using key.length_eq

/-- Closed form of the sink loop of the multithreaded handler from any start
state: the streams grow by the joined batch results and the counters by the
corresponding line counts. -/
theorem mtFold (ingest : List (List String)) :
    ∀ (vo eo : List String) (lc vc ec : Nat),
      ingest.foldl mtIngest ⟨vo, eo, lc, vc, ec⟩ =
        ⟨vo ++ validJoined ingest, eo ++ errorJoined ingest,
          lc + ((validJoined ingest).length + (errorJoined ingest).length),
          vc + (validJoined ingest).length, ec + (errorJoined ingest).length⟩ := by
  induction ingest with
  | nil => intro vo eo lc vc ec; simp [validJoined, errorJoined]
  | cons b bs ih =>
    intro vo eo lc vc ec
    rw [List.foldl_cons]
    simp only [mtIngest]
    rw [ih]
    simp only [validJoined, errorJoined, List.flatMap_cons, MtState.mk.injEq]
    refine ⟨by simp, by simp, ?_, ?_, ?_⟩
    · simp only [List.length_append]; omega
    · simp only [List.length_append]; omega
    · simp only [List.length_append]; omega

/-- Lines drained without refill stay below any bound on the start count. -/
theorem drainLoop_le (w : Nat) : ∀ i, i ≤ 2 * w → ∀ x ∈ drainLoop i, x ≤ 2 * w := by
  intro i
  induction i with
  | zero => intro _ x hx; cases hx
  | succ n ih =>
    intro h x hx
    rcases List.mem_cons.mp hx with rfl | hx2
    · omega
    · exact ih (by omega) x hx2

/-- The steady submit-per-consume loop preserves the in-flight bound. -/
theorem schedLoop_le (w : Nat) : ∀ r i, i ≤ 2 * w → ∀ x ∈ schedLoop i r, x ≤ 2 * w := by
  intro r
  induction r with
  | zero => intro i h x hx; exact drainLoop_le w i h x (by simpa [schedLoop] using hx)
  | succ r2 ih =>
    intro i h x hx
    cases i with
    | zero => simp [schedLoop] at hx
    | succ n =>
      simp only [schedLoop, List.mem_cons] at hx
      rcases hx with rfl | hx2
      · exact h
      · exact ih (n + 1) h x hx2

/-! Claim theorems. -/

/-- C1: for every stream of data records, however it is split into batches
and in whatever completion order the batch results are ingested, the
accepted count plus the rejected count equals the number of data records,
and every record line occurs in the two outputs exactly as often as in the
input. -/
theorem c1_conservation (dataLines : List String) (bs ingest : List (List String))
    (hsplit : bs.flatten = dataLines) (horder : ingest.Perm bs) :
    (validJoined ingest).length + (errorJoined ingest).length = dataLines.length ∧
      ∀ a, (validJoined ingest).count a + (errorJoined ingest).count a = dataLines.count a := by
  have hflat : ingest.flatten.Perm dataLines := by
    have := horder.flatMap_right fun b => b
    rw [flatMap_self, flatMap_self, hsplit] at this
    exact this
  have key : ((validJoined ingest) ++ (errorJoined ingest)).Perm dataLines :=
    (joined_perm ingest).trans hflat
  constructor
  · have := key.length_eq
    simpa [List.length_append] using this
  · intro a
    have := key.count_eq a
    simpa [List.count_append] using this

/-- Witness for C1 at a concrete two-record stream split into two singleton
batches ingested in reversed completion order. -/
theorem c1_conservation_witness :
    (validJoined [["bad"], ["1,ok,2024/01/01"]]).length
        + (errorJoined [["bad"], ["1,ok,2024/01/01"]]).length
      = (["1,ok,2024/01/01", "bad"] : List String).length ∧
      (validJoined [["bad"], ["1,ok,2024/01/01"]]).count "bad"
          + (errorJoined [["bad"], ["1,ok,2024/01/01"]]).count "bad"
        = (["1,ok,2024/01/01", "bad"] : List String).count "bad" := by
  have h := c1_conservation ["1,ok,2024/01/01", "bad"] [["1,ok,2024/01/01"], ["bad"]]
    [["bad"], ["1,ok,2024/01/01"]] rfl (List.Perm.swap ["1,ok,2024/01/01"] ["bad"] [])
  exact ⟨h.1, h.2 "bad"⟩

/-- C7: in the multithreaded scheduler the number of in-flight batches never
exceeds twice the worker count, at the initial prefill and after every
consume-then-submit turn. -/
theorem c7_inflight_bound (numBatches x : Nat) (hx : x ∈ schedTrace MAX_WORKERS numBatches) :
    x ≤ 2 * MAX_WORKERS := by
  simp only [schedTrace, List.mem_cons] at hx
  rcases hx with rfl | hx2
  · exact Nat.min_le_left _ _
  · exact schedLoop_le MAX_WORKERS _ _ (Nat.min_le_left _ _) x hx2

/-- Witness for C7 on a twenty-batch run. -/
theorem c7_inflight_bound_witness :
    8 ∈ schedTrace MAX_WORKERS 20 ∧ 8 ≤ 2 * MAX_WORKERS :=
  ⟨by decide, c7_inflight_bound 20 8 (by decide)⟩

/-- C8: with id 007 and label ok, the leap day 2024/02/29 is accepted and
the non-leap day 2023/02/29 is rejected with reason date-invalid. -/
theorem c8_leap_day :
    validate_csv_row "007,ok,2024/02/29" = Verdict.ok ∧
      (validate_csv_row "007,ok,2023/02/29").taxonomy = some "date-invalid" := by
  constructor
  · rfl
  · rfl

/-- C10: process_batch splits a batch into two order-preserving
subsequences that together are a permutation of the batch. -/
theorem c10_partition (l : List String) :
    (process_batch l).1.Sublist l ∧ (process_batch l).2.Sublist l ∧
      ((process_batch l).1 ++ (process_batch l).2).Perm l := by
  rw [process_batch_eq]
  exact ⟨List.filter_sublist l, List.filter_sublist l, List.filter_append_perm _ l⟩

/-- C9: a record whose id and day pass their rules is accepted even with an
empty label; only the upper length bound is enforced on the label. -/
theorem c9_empty_label (no day : String) (h1 : idRuleOk no = true)
    (h2 : pyDateFormatOk day = true) (h3 : pyStrptimeYmdOk day = true) :
    checkRow [no, "", day] = Verdict.ok := by
  simp only [idRuleOk, Bool.and_eq_true, Bool.not_eq_true', decide_eq_false_iff_not] at h1
  obtain ⟨hno, hint⟩ := h1
  simp [checkRow, hno, hint, h2, h3]

/-- Witness for C9 at a concrete record with an empty label. -/
theorem c9_empty_label_witness : checkRow ["7", "", "2024/01/01"] = Verdict.ok :=
  c9_empty_label "7" "2024/01/01" (by decide) (by decide) (by decide)

/-- Counterexample for C3: the id 1_2 is not an optionally signed plain
digit string, yet the record is accepted, because the Python int conversion
also allows underscore separators between digits. -/
theorem c3_counterexample :
    checkRow ["1_2", "ok", "2024/01/01"] = Verdict.ok ∧ specIdOk "1_2" = false := by
  constructor
  · decide
  · decide

/-- C3 amended: a three-field record is rejected with reason
id-null-or-nonint exactly when the id fails the Python int conversion, whose
grammar is optional surrounding whitespace, an optional sign, and digits
with single underscore separators allowed between digits. -/
theorem c3_amended (no name day : String) :
    ((checkRow [no, name, day]).taxonomy = some "id-null-or-nonint") ↔ pyIntOk no = false := by
  by_cases h1 : no = "" ∨ pyStrip no = ""
  · have hf : pyIntOk no = false := pyIntOk_blank_false no h1
    simp [checkRow, h1, Verdict.taxonomy, Reason.taxonomy, hf]
  · by_cases h2 : pyIntOk no
    · simp only [checkRow, if_neg h1, h2, Bool.not_true, Bool.false_eq_true, if_false]
      split_ifs <;> simp [Verdict.taxonomy, Reason.taxonomy, h2]
    · have h2f : pyIntOk no = false := by revert h2; cases pyIntOk no <;> simp
      simp [checkRow, h1, h2f, Verdict.taxonomy, Reason.taxonomy]

/-- Counterexample for C5: a line with a bare carriage return cannot be
parsed by the csv reader, and the verdict carries the engine error text,
which lies outside the five-element taxonomy, instead of malformed-row. -/
theorem c5_counterexample :
    validate_csv_row "a\rb,c,d" = Verdict.reject (Reason.engineFault csvNewlineMsg) ∧
      Reason.taxonomy (Reason.engineFault csvNewlineMsg) = none :=
  ⟨rfl, rfl⟩

/-- C5 amended: validate always returns a verdict and never propagates an
exception; a parse failure of the csv engine yields a rejected verdict
carrying the engine error text, outside the taxonomy, while a parsed row
with a wrong field count yields malformed-row. -/
theorem c5_amended (line : String) :
    (validate_csv_row line = Verdict.ok ∨ ∃ r, validate_csv_row line = Verdict.reject r) ∧
      (∀ e, parseCsvLine line = .error e →
        validate_csv_row line = Verdict.reject (Reason.engineFault e)) ∧
      ∀ row, parseCsvLine line = .ok row → row.length ≠ 3 →
        validate_csv_row line = Verdict.reject Reason.invalidColumnCount := by
  refine ⟨?_, ?_, ?_⟩
  · cases h : validate_csv_row line with
    | ok => exact Or.inl rfl
    | reject r => exact Or.inr ⟨r, rfl⟩
  · intro e he
    simp [validate_csv_row, he]
  · intro row hr hlen
    simp [validate_csv_row, hr, checkRow_length_ne row hlen]

/-- Witness for C5 at a two-field line. -/
theorem c5_amended_witness : validate_csv_row "x,y" = Verdict.reject Reason.invalidColumnCount :=
  (c5_amended "x,y").2.2 ["x", "y"] rfl (by decide)

/-- C2: at taxonomy level the verdict of the rule chain equals the scan of
the five specification rules in their stated order, the first failing rule
determining the reason; in particular a three-field record with a valid id,
a label longer than twenty characters and a day breaking the date format is
classified label-too-long. -/
theorem c2_rule_order :
    (∀ row, (checkRow row).taxonomy = firstFailingReason specRules row) ∧
      ∀ no name day, idRuleOk no = true → 20 < name.length → pyDateFormatOk day = false →
        checkRow [no, name, day] = Verdict.reject Reason.nameTooLong := by
  constructor
  · intro row
    match row with
    | [] => rfl
    | [a] => rfl
    | [a, b] => rfl
    | a :: b :: c :: d :: rest =>
      have h4 : ¬((a :: b :: c :: d :: rest).length = 3) := by
        simp only [List.length_cons]
        omega
      rw [checkRow_length_ne _ h4]
      simp [firstFailingReason, specRules, h4, Reason.taxonomy, Verdict.taxonomy]
    | [no, name, day] =>
      by_cases h1 : no = "" ∨ pyStrip no = ""
      · simp [checkRow, firstFailingReason, specRules, idRuleOk, h1,
          Verdict.taxonomy, Reason.taxonomy, pyIntOk_blank_false no h1]
      · by_cases h2 : pyIntOk no
        · by_cases h3 : 20 < name.length
          · have h3n : ¬(name.length ≤ 20) := by omega
            simp [checkRow, firstFailingReason, specRules, idRuleOk, h1, h2, h3, h3n,
              Verdict.taxonomy, Reason.taxonomy]
          · have h3y : name.length ≤ 20 := by omega
            by_cases h4 : pyDateFormatOk day
            · by_cases h5 : pyStrptimeYmdOk day
              · simp [checkRow, firstFailingReason, specRules, idRuleOk, h1, h2, h3, h3y,
                  h4, h5, Verdict.taxonomy, Reason.taxonomy]
              · simp [checkRow, firstFailingReason, specRules, idRuleOk, h1, h2, h3, h3y,
                  h4, h5, Verdict.taxonomy, Reason.taxonomy]
            · simp [checkRow, firstFailingReason, specRules, idRuleOk, h1, h2, h3, h3y,
                h4, Verdict.taxonomy, Reason.taxonomy]
        · have h2f : pyIntOk no = false := by revert h2; cases pyIntOk no <;> simp
          simp [checkRow, firstFailingReason, specRules, idRuleOk, h1, h2f,
            Verdict.taxonomy, Reason.taxonomy]
  · intro no name day h1 h2 h3
    simp only [idRuleOk, Bool.and_eq_true, Bool.not_eq_true', decide_eq_false_iff_not] at h1
    obtain ⟨hno, hint⟩ := h1
    simp [checkRow, hno, hint, h2]

/-- Witness for C2 at a record with a valid id, a twenty-one character
label, and a wrongly separated day. -/
theorem c2_rule_order_witness :
    checkRow ["7", "aaaaaaaaaaaaaaaaaaaaa", "2024-01-01"] = Verdict.reject Reason.nameTooLong :=
  c2_rule_order.2 "7" "aaaaaaaaaaaaaaaaaaaaa" "2024-01-01" (by decide) (by decide) (by decide)

/-- Counterexample for C4: on a stream holding the header and one data
record, the total counter ends at two, because the header line is counted in
line_count before the header test, even though accepted plus rejected is
one. -/
theorem c4_counterexample :
    (appRun ["h", "1,ok,2024/01/01"]).lineCount = 2 ∧
      (appRun ["h", "1,ok,2024/01/01"]).validCount = 1 ∧
      (appRun ["h", "1,ok,2024/01/01"]).errorCount = 0 ∧
      (appRun ["h", "1,ok,2024/01/01"]).lineCount ≠
        (appRun ["h", "1,ok,2024/01/01"]).validCount
          + (appRun ["h", "1,ok,2024/01/01"]).errorCount := by
  decide

/-- appStep ignores empty lines. -/
theorem appStep_skip (s : AppState) : appStep s "" = s := by
  simp [appStep]

/-- Leading empty lines are skipped by the line loop. -/
theorem appRun_pre (pre : List String) (h : ∀ l ∈ pre, l = "") :
    ∀ (s : AppState) (ls : List String), List.foldl appStep s (pre ++ ls) = List.foldl appStep s ls := by
  induction pre with
  | nil => intro s ls; rfl
  | cons p ps ih =>
    intro s ls
    have hp : p = "" := h p (List.mem_cons_self _ _)
    subst hp
    rw [List.cons_append, List.foldl_cons, appStep_skip]
    exact ih (fun l hl => h l (List.mem_cons_of_mem _ hl)) s ls

/-- Closed form of the line loop after the header was consumed: the data
lines are the nonempty remaining lines, each routed by validation, with all
three counters advanced accordingly. -/
theorem foldl_after_header (rest : List String) :
    ∀ (vo eo : List String) (lc vc ec : Nat),
      List.foldl appStep ⟨vo, eo, lc, vc, ec, false⟩ rest =
        ⟨vo ++ (dataOf rest).filter isValidLine,
          eo ++ (dataOf rest).filter fun l => !isValidLine l,
          lc + (dataOf rest).length,
          vc + ((dataOf rest).filter isValidLine).length,
          ec + ((dataOf rest).filter fun l => !isValidLine l).length, false⟩ := by
  induction rest with
  | nil => intro vo eo lc vc ec; simp [dataOf]
  | cons x xs ih =>
    intro vo eo lc vc ec
    by_cases hx : x = ""
    · subst hx
      rw [List.foldl_cons, appStep_skip, ih]
      simp [dataOf, List.filter_cons]
    · have hdata : dataOf (x :: xs) = x :: dataOf xs := by
        simp [dataOf, List.filter_cons, hx]
      by_cases hv : isValidLine x
      · have hstep : appStep ⟨vo, eo, lc, vc, ec, false⟩ x
            = ⟨vo ++ [x], eo, lc + 1, vc + 1, ec, false⟩ := by
          simp [appStep, hx, hv]
        rw [List.foldl_cons, hstep, ih, hdata]
        simp only [List.filter_cons, hv, if_true, List.length_cons, AppState.mk.injEq,
          List.append_assoc, List.singleton_append]
        refine ⟨by simp, by simp, by omega, by omega, by simp, by simp⟩
      · have hvf : isValidLine x = false := by revert hv; cases isValidLine x <;> simp
        have hstep : appStep ⟨vo, eo, lc, vc, ec, false⟩ x
            = ⟨vo, eo ++ [x], lc + 1, vc, ec + 1, false⟩ := by
          simp [appStep, hx, hvf]
        rw [List.foldl_cons, hstep, ih, hdata]
        simp only [List.filter_cons, hvf, Bool.not_false, if_true, Bool.false_eq_true,
          if_false, List.length_cons, AppState.mk.injEq, List.append_assoc,
          List.singleton_append]
        refine ⟨by simp, by simp, by omega, by simp, by omega, by simp⟩

/-- C4 amended: in app.py the header is the first non-empty line of the
stream, while in app_multithread.py it is the literal first line, so a
stream starting with an empty line forwards no header there and its first
non-empty line is validated as a data record. A forwarded header goes
verbatim to both outputs exactly once, is never validated, and is not
counted in the accepted or rejected counters, but it is counted once in the
total counter. -/
theorem c4_amended :
    (∀ (pre : List String) (hdr : String) (rest : List String),
      (∀ l ∈ pre, l = "") → hdr ≠ "" →
        appRun (pre ++ hdr :: rest) =
          ⟨hdr :: (dataOf rest).filter isValidLine,
            hdr :: (dataOf rest).filter fun l => !isValidLine l,
            1 + (dataOf rest).length,
            ((dataOf rest).filter isValidLine).length,
            ((dataOf rest).filter fun l => !isValidLine l).length, false⟩) ∧
      (∀ (hdr : String) (rest : List String) (bs ingest : List (List String)),
        hdr ≠ "" → bs.flatten = dataOf rest → ingest.Perm bs →
          mtRun (hdr :: rest) ingest =
            ⟨hdr :: validJoined ingest, hdr :: errorJoined ingest,
              1 + (dataOf rest).length,
              (validJoined ingest).length, (errorJoined ingest).length⟩) ∧
      ∀ (rest : List String) (bs ingest : List (List String)),
        bs.flatten = dataOf rest → ingest.Perm bs →
          mtRun ("" :: rest) ingest =
            ⟨validJoined ingest, errorJoined ingest,
              (dataOf rest).length,
              (validJoined ingest).length, (errorJoined ingest).length⟩ := by
  refine ⟨?_, ?_, ?_⟩
  · intro pre hdr rest hpre hhdr
    unfold appRun
    rw [appRun_pre pre hpre appInit (hdr :: rest), List.foldl_cons]
    have hstep : appStep appInit hdr = ⟨[hdr], [hdr], 1, 0, 0, false⟩ := by
      simp [appStep, appInit, hhdr]
    rw [hstep, foldl_after_header]
    simp
  · intro hdr rest bs ingest hhdr hsplit horder
    have hhead : mtHeaderState (hdr :: rest) = ⟨[hdr], [hdr], 1, 0, 0⟩ := by
      simp [mtHeaderState, hhdr]
    have hlen := joined_length (dataOf rest) bs ingest hsplit horder
    unfold mtRun
    rw [hhead, mtFold]
    simp only [List.singleton_append, Nat.zero_add, MtState.mk.injEq]
    refine ⟨by simp, by simp, by omega, by simp, by simp⟩
  · intro rest bs ingest hsplit horder
    have hhead : mtHeaderState ("" :: rest) = ⟨[], [], 0, 0, 0⟩ := by
      simp [mtHeaderState]
    have hlen := joined_length (dataOf rest) bs ingest hsplit horder
    unfold mtRun
    rw [hhead, mtFold]
    simp only [List.nil_append, Nat.zero_add, MtState.mk.injEq]
    refine ⟨by simp, by simp, by omega, by simp, by simp⟩

/-- Witness for C4: the sequential handler on a stream with a leading empty
line, and the multithreaded handler on a stream whose first line is empty,
where no header is forwarded and the first non-empty line is routed through
validation as data. -/
theorem c4_amended_witness :
    appRun ["", "h", "1,ok,2024/01/01", "", "bad"] =
        ⟨["h", "1,ok,2024/01/01"], ["h", "bad"], 3, 1, 1, false⟩ ∧
      mtRun ["", "1,ok,2024/01/01", "bad"] [["bad"], ["1,ok,2024/01/01"]] =
        ⟨["1,ok,2024/01/01"], ["bad"], 2, 1, 1⟩ := by
  constructor
  · exact (c4_amended.1 [""] "h" ["1,ok,2024/01/01", "", "bad"] (by simp) (by decide)).trans
      (by decide)
  · exact (c4_amended.2.2 ["1,ok,2024/01/01", "bad"] [["1,ok,2024/01/01"], ["bad"]]
      [["bad"], ["1,ok,2024/01/01"]] (by decide)
      (List.Perm.swap ["1,ok,2024/01/01"] ["bad"] [])).trans (by decide)

/-- Counterexample for C6: the id 3000000000 exceeds the 32-bit signed
range, so the DuckDB predicate rejects the record while validate_csv_row
accepts it, the Python int being unbounded. -/
theorem c6_counterexample :
    checkRow ["3000000000", "ok", "2024/01/01"] = Verdict.ok ∧
      duckAccepts "3000000000" "ok" "2024/01/01" = false := by
  constructor
  · decide
  · decide

/-- C6 amended: the DuckDB predicate agrees with validate_csv_row on every
three-field record whose id is an optionally signed plain digit string with
no surrounding whitespace and no underscore separators whose value fits the
32-bit signed integer range, whose label is non-empty (the CSV reader turns
an empty field into NULL, which the SQL predicate never accepts), and whose
day, when it matches the date pattern, has a nonzero year. -/
theorem c6_amended (no name day : String)
    (ha : signedDigitsOnly no.toList = true)
    (hlo : -(2 ^ 31) ≤ intOfSigned no.toList)
    (hhi : intOfSigned no.toList ≤ 2 ^ 31 - 1)
    (hname : ¬(name = ""))
    (hyear : ∀ y m d, dateFields? day.toList = some (y, m, d) → 1 ≤ y) :
    (checkRow [no, name, day] = Verdict.ok ↔ duckAccepts no name day = true) := by
  have hnw : ∀ c ∈ no.toList, isPyWs c = false := signed_no_ws no.toList ha
  have hstrip : pyStripList no.toList = no.toList := stripList_eq_self isPyWs no.toList hnw
  have hne : no.toList ≠ [] := by
    intro h
    rw [h] at ha
    exact absurd ha (by decide)
  have hnoempty : ¬(no = "") := by
    intro h
    subst h
    exact hne rfl
  have hstripne : ¬(pyStrip no = "") := by
    intro h
    have h2 : pyStripList no.toList = [] := congrArg String.data h
    rw [hstrip] at h2
    exact hne h2
  have hint : pyIntOk no = true := by
    unfold pyIntOk
    rw [hstrip]
    exact pyIntBody_of_signed no.toList ha
  have hcast : duckCastIntOk no = true := by
    simp only [duckCastIntOk, hstrip, ha, Bool.true_and, decide_eq_true_eq]
    exact ⟨hlo, hhi⟩
  have hsp : ∀ c ∈ no.toList, (fun c => decide (c = ' ')) c = false := by
    intro c hc
    have h2 := hnw c hc
    simp only [isPyWs, decide_eq_false_iff_not] at h2 ⊢
    intro h3
    exact h2 (Or.inl h3)
  have hdtrim : ¬(duckTrim no = "") := by
    intro h
    have h2 := congrArg String.data h
    simp only [duckTrim] at h2
    rw [stripList_eq_self _ no.toList hsp] at h2
    exact hne h2
  have hL : checkRow [no, name, day] = Verdict.ok ↔
      (name.length ≤ 20 ∧ pyDateFormatOk day = true ∧ pyStrptimeYmdOk day = true) := by
    constructor
    · intro h
      by_cases h3 : 20 < name.length
      · simp [checkRow, hnoempty, hstripne, hint, h3] at h
      · by_cases h4 : pyDateFormatOk day
        · by_cases h5 : pyStrptimeYmdOk day
          · exact ⟨by omega, h4, h5⟩
          · have h5f : pyStrptimeYmdOk day = false := by
              revert h5; cases pyStrptimeYmdOk day <;> simp
            simp [checkRow, hnoempty, hstripne, hint, h3, h4, h5f] at h
        · have h4f : pyDateFormatOk day = false := by
            revert h4; cases pyDateFormatOk day <;> simp
          simp [checkRow, hnoempty, hstripne, hint, h3, h4f] at h
    · rintro ⟨h3, h4, h5⟩
      have h3n : ¬(20 < name.length) := by omega
      simp [checkRow, hnoempty, hstripne, hint, h3n, h4, h5]
  have hR : duckAccepts no name day = true ↔
      (name.length ≤ 20 ∧ ¬(day = "") ∧
        (dateFields? day.toList).isSome = true ∧ duckCastDateOk day = true) := by
    simp [duckAccepts, hnoempty, hdtrim, hcast, hname, and_assoc]
  rw [hL, hR]
  constructor
  · rintro ⟨h3, h4, h5⟩
    unfold pyStrptimeYmdOk at h5
    cases hdf : dateFields? day.toList with
    | none => rw [hdf] at h5; exact absurd h5 (by simp)
    | some t =>
      obtain ⟨y, m, d⟩ := t
      rw [hdf] at h5
      simp only [Bool.and_eq_true, decide_eq_true_eq] at h5
      have hdayne : ¬(day = "") := by
        intro hd
        rw [hd, show dateFields? (String.toList "") = none from rfl] at hdf
        cases hdf
      refine ⟨h3, hdayne, by simp [hdf], ?_⟩
      unfold duckCastDateOk
      rw [hdf]
      exact h5.2
  · rintro ⟨h3, _, h4, h5⟩
    refine ⟨h3, ?_, ?_⟩
    · simp only [pyDateFormatOk, Bool.or_eq_true]
      exact Or.inl h4
    · cases hdf : dateFields? day.toList with
      | none => rw [hdf] at h4; exact absurd h4 (by simp)
      | some t =>
        obtain ⟨y, m, d⟩ := t
        have hy := hyear y m d hdf
        unfold duckCastDateOk at h5
        rw [hdf] at h5
        unfold pyStrptimeYmdOk
        rw [hdf]
        simp only [Bool.and_eq_true, decide_eq_true_eq]
        exact ⟨hy, h5⟩

/-- Witness for C6 at a record satisfying all the side conditions. -/
theorem c6_amended_witness :
    signedDigitsOnly (String.toList "7") = true ∧
      (checkRow ["7", "ok", "2024/02/29"] = Verdict.ok ↔
        duckAccepts "7" "ok" "2024/02/29" = true) := by
  refine ⟨by decide,
    c6_amended "7" "ok" "2024/02/29" (by decide) (by decide) (by decide) (by decide) ?_⟩
  intro y m d h
  have h2 : (some (2024, 2, 29) : Option (Nat × Nat × Nat)) = some (y, m, d) :=
    (show dateFields? (String.toList "2024/02/29") = some (2024, 2, 29) from rfl).symm.trans h
  simp only [Option.some.injEq, Prod.mk.injEq] at h2
  omega

end Cleanse
